import Mathlib

/-!
Verification of the Option-Trading-Bot core against its design specification.

The development shallowly embeds the pure decision logic of the two core
modules:

* `backend/bot/tasty_client.py` — quote-cache updates driven by DXLink
  FEED_DATA events (`_handle_message`), quote derivation (`get_option_quote`),
  ATM option selection (`find_atm_option`), the WebSocket handshake frames
  (`_websocket_handler`), delta subscription (`_subscribe_symbols`), and the
  order placement payload / response handling (`place_order`);
* `backend/bot/trading_engine.py` — daily open-price memoisation
  (`get_or_set_open_price`), breakout detection (`check_entry_signal`) and
  order execution with its guards (`execute_trade`).

Python floats are modelled as rationals (ℚ), Python `int()` truncation is
modelled explicitly (`pyInt`), database tables as lists of rows, and the
effectful collaborators (HTTP, the WebSocket transport, the wall clock) as
explicit parameters.  Dictionaries keyed by symbol are association lists.
-/

/-! ### Python string helpers

`str.upper` / `str.title` for the ASCII strings this code base uses
("call", "CALL", "BUY", "MARKET", "LIMIT", ...). -/

/-- ASCII upper-casing of one character, as Python `str.upper` does on the
letters appearing in this code base. -/
def charUpper (c : Char) : Char :=
  if 'a' ≤ c ∧ c ≤ 'z' then Char.ofNat (c.toNat - 32) else c

/-- ASCII lower-casing of one character. -/
def charLower (c : Char) : Char :=
  if 'A' ≤ c ∧ c ≤ 'Z' then Char.ofNat (c.toNat + 32) else c

/-- Python `str.upper` for ASCII strings. -/
def strUpper (s : String) : String :=
  String.mk (s.data.map charUpper)

/-- Python `str.title` for the single-word ASCII strings used here
("MARKET".title() = "Market"). -/
def strTitle (s : String) : String :=
  match s.data with
  | [] => ""
  | c :: cs => String.mk (charUpper c :: cs.map charLower)

/-- Python `int(q)` on a float/rational: truncation toward zero. -/
def pyInt (q : ℚ) : ℤ :=
  if q < 0 then -⌊-q⌋ else ⌊q⌋

/-! ### Quote cache (`tasty_client.py`, `self.quote_cache`)

`quote_cache` is a dict from streamer symbol to a dict of fields; a field
that was never written is absent (`None` here).  `_handle_message` merges
Quote events (bid/ask/mark/timestamp) and Trade events (last/timestamp)
into the entry of their symbol (lines 294-361). -/

/-- One `quote_cache[symbol]` dict.  A missing key is `none`. -/
structure CacheEntry where
  bid : Option ℚ
  ask : Option ℚ
  last : Option ℚ
  mark : Option ℚ
  timestamp : Option ℚ
deriving DecidableEq, Repr

/-- The all-absent dict `{}` created by `self.quote_cache[symbol] = {}`. -/
def emptyEntry : CacheEntry := ⟨none, none, none, none, none⟩

/-- The quote cache: a dict from streamer symbol to its entry. -/
abbrev QuoteCache := List (String × CacheEntry)

/-- Dict lookup. -/
def lookupEntry : QuoteCache → String → Option CacheEntry
  | [], _ => none
  | (k, v) :: rest, s => if k = s then some v else lookupEntry rest s

/-- Dict write: replace the entry of `s`, or add one if absent. -/
def updateEntry : QuoteCache → String → CacheEntry → QuoteCache
  | [], s, e => [(s, e)]
  | (k, v) :: rest, s, e =>
      if k = s then (k, e) :: rest else (k, v) :: updateEntry rest s e

/-- A decoded market-data event, after the compact-frame fields have been
parsed (`float(...)` with `NaN`/`None` coerced to 0 at the call sites). -/
inductive FeedEvent where
  | quote (symbol : String) (bidPrice askPrice : ℚ)
  | trade (symbol : String) (lastPrice : ℚ)
deriving DecidableEq, Repr

/-- `_handle_message` cache effect of one decoded event (tasty_client.py
lines 315-361): a Quote event writes bid/ask, the derived mark
(mid of bid/ask when both positive, else 0) and a timestamp; a Trade event
writes last and a timestamp.  Both merge into (`dict.update`) the existing
entry of the symbol, creating `{}` first when the symbol is new. -/
def applyEvent (ts : ℚ) (cache : QuoteCache) : FeedEvent → QuoteCache
  | FeedEvent.quote s bid ask =>
      let old := (lookupEntry cache s).getD emptyEntry
      updateEntry cache s
        { old with
          bid := some bid
          ask := some ask
          mark := some (if 0 < bid ∧ 0 < ask then (bid + ask) / 2 else 0)
          timestamp := some ts }
  | FeedEvent.trade s p =>
      let old := (lookupEntry cache s).getD emptyEntry
      updateEntry cache s { old with last := some p, timestamp := some ts }

/-- A stream of timestamped events folded into the cache, starting from the
empty dict initialised in `__init__`. -/
def applyEvents (events : List (ℚ × FeedEvent)) : QuoteCache :=
  events.foldl (fun c te => applyEvent te.1 c te.2) []

/-- The dict returned by `get_option_quote`. -/
structure OptionQuote where
  symbol : String
  bid : ℚ
  ask : ℚ
  last : ℚ
  mark : ℚ
deriving DecidableEq, Repr

/-- `get_option_quote`, cache-hit path (tasty_client.py lines 702-721): read
the cached fields (missing/falsy coerced to 0 by `.get(k, 0) or 0`), derive
the mark when the cached mark is 0 (mid of bid/ask when both positive,
else last), and floor the reported mark at 0.01.  The subscription side
effect and the conversion from OCC to streamer symbol are outside this
model: the function is given the streamer symbol and the cache. -/
def get_option_quote (cache : QuoteCache) (streamer_symbol : String) :
    Option OptionQuote :=
  match lookupEntry cache streamer_symbol with
  | none => none
  | some q =>
      let bid := q.bid.getD 0
      let ask := q.ask.getD 0
      let last := q.last.getD 0
      let mark0 := q.mark.getD 0
      let mark :=
        if mark0 = 0 ∧ 0 < bid ∧ 0 < ask then (bid + ask) / 2
        else if mark0 = 0 then last
        else mark0
      some ⟨streamer_symbol, bid, ask, last, if 0 < mark then mark else 1 / 100⟩

/-- `get_option_quote`, retry path after the one-second wait (tasty_client.py
lines 726-739): the mark is recomputed directly as mid of bid/ask when both
are positive, else last, floored at 0.01. -/
def get_option_quote_retry (cache : QuoteCache) (streamer_symbol : String) :
    Option OptionQuote :=
  match lookupEntry cache streamer_symbol with
  | none => none
  | some q =>
      let bid := q.bid.getD 0
      let ask := q.ask.getD 0
      let last := q.last.getD 0
      let mark := if 0 < bid ∧ 0 < ask then (bid + ask) / 2 else last
      some ⟨streamer_symbol, bid, ask, last, if 0 < mark then mark else 1 / 100⟩

/-- Invariant maintained by `_handle_message` on every cache entry: the
cached mark is exactly the mid of the cached bid/ask when both are positive
and 0 otherwise (it is written only by Quote events, together with bid and
ask; Trade events leave all three untouched). -/
def entryMarkConsistent (e : CacheEntry) : Prop :=
  e.mark.getD 0 =
    if 0 < e.bid.getD 0 ∧ 0 < e.ask.getD 0 then
      (e.bid.getD 0 + e.ask.getD 0) / 2
    else 0

/-- All entries of a cache satisfy `entryMarkConsistent`. -/
def cacheConsistent (c : QuoteCache) : Prop :=
  ∀ s e, lookupEntry c s = some e → entryMarkConsistent e

/-! ### WebSocket handshake and subscription (`tasty_client.py`) -/

/-- A control frame sent on the DXLink WebSocket.  The subscription frame
carries its `add` list of (event type, symbol) pairs. -/
inductive WsFrame where
  | setup
  | auth (token : String)
  | channelRequest (channel : ℕ)
  | feedSetup (channel : ℕ)
  | feedSubscription (channel : ℕ) (add : List (String × String))
  | keepalive
deriving DecidableEq, Repr

/-- The frames `_websocket_handler` sends from connection open until it
enters the streaming loop (tasty_client.py lines 200-257): SETUP, AUTH,
CHANNEL_REQUEST, FEED_SETUP — and nothing else.  In particular it never
reads `self.subscribed_symbols` and never sends a FEED_SUBSCRIPTION frame. -/
def websocket_handler_sent_frames (dxlink_token : String) (ws_channel : ℕ) :
    List WsFrame :=
  [WsFrame.setup, WsFrame.auth dxlink_token, WsFrame.channelRequest ws_channel,
   WsFrame.feedSetup ws_channel]

/-- The `finally` clause of `_websocket_handler` (lines 276-279): it clears
`self.ws` and cancels the keepalive task but leaves
`self.subscribed_symbols` exactly as it was. -/
def websocket_handler_cleanup (subscribed_symbols : List String) : List String :=
  subscribed_symbols

/-- `_subscribe_symbols` (tasty_client.py lines 363-393): for each requested
symbol not yet in `self.subscribed_symbols`, append a Quote and a Trade
entry to the `add` list and add the symbol to the set; send one
FEED_SUBSCRIPTION frame when the `add` list is non-empty, no frame at all
when it is empty.  Returns (frames sent, new subscribed set). -/
def subscribe_symbols (ws_channel : ℕ) (subscribed_symbols : List String)
    (symbols : List String) : List WsFrame × List String :=
  let step := fun (acc : List (String × String) × List String) (symbol : String) =>
    if symbol ∈ acc.2 then acc
    else (acc.1 ++ [("Quote", symbol), ("Trade", symbol)], acc.2 ++ [symbol])
  let r := symbols.foldl step ([], subscribed_symbols)
  if r.1 = [] then ([], r.2)
  else ([WsFrame.feedSubscription ws_channel r.1], r.2)

/-- The set of symbols a list of frames subscribes to. -/
def framesSubscribedSet (frames : List WsFrame) : List String :=
  frames.flatMap fun f =>
    match f with
    | WsFrame.feedSubscription _ add => add.map Prod.snd
    | _ => []

/-! ### Option chain and ATM selection (`tasty_client.py`) -/

/-- One instrument of the nested chain parsed by `get_option_chain`
(tasty_client.py lines 542-562).  Dates are modelled as integer day
numbers. -/
structure ChainOption where
  symbol : String
  streamer_symbol : String
  option_type : String
  strike_price : ℚ
  expiration_date : ℤ
  dte : ℤ
deriving DecidableEq, Repr

/-- The parsed chain: a dict from expiration date to the instruments of
that expiration (`chain[exp_date] = options`). -/
abbrev OptionChain := List (ℤ × List ChainOption)

/-- Stable insertion into a list sorted ascending by expiration date. -/
def insertByDate (p : ℤ × List ChainOption) :
    List (ℤ × List ChainOption) → List (ℤ × List ChainOption)
  | [] => [p]
  | q :: qs => if q.1 ≤ p.1 then q :: insertByDate p qs else p :: q :: qs

/-- `sorted(chain.items())`: the chain items in ascending date order (the
dict has one item per date). -/
def sortChain : OptionChain → List (ℤ × List ChainOption)
  | [] => []
  | p :: ps => insertByDate p (sortChain ps)

/-- The `valid_options` list of `find_atm_option` (tasty_client.py lines
596-606): iterate the chain in ascending expiration order, recompute
`dte = (exp_date - today).days`, keep the expirations with
`days_to_exp_min <= dte <= days_to_exp_max`, and within them the
instruments of the requested type, in chain order. -/
def validOptions (chain : OptionChain) (today : ℤ) (target_type : String)
    (days_to_exp_min days_to_exp_max : ℤ) : List ChainOption :=
  (sortChain chain).flatMap fun p =>
    if days_to_exp_min ≤ p.1 - today ∧ p.1 - today ≤ days_to_exp_max then
      p.2.filter fun opt => opt.option_type == target_type
    else []

/-- Python `min(l, key=f)`: fold keeping the incumbent unless a later
element has a strictly smaller key, so ties resolve to the first
element encountered. -/
def minByFirst {α : Type} (f : α → ℚ) : List α → Option α
  | [] => none
  | x :: xs => some (xs.foldl (fun b y => if f y < f b then y else b) x)

/-- The dict returned by `find_atm_option` (lines 617-625). -/
structure AtmResult where
  symbol : String
  streamer_symbol : String
  underlying : String
  option_type : String
  strike : ℚ
  expiration : ℤ
  dte : ℤ
deriving DecidableEq, Repr

/-- Build the result dict from the selected instrument. -/
def atmResult (underlying_symbol option_type : String) (opt : ChainOption) :
    AtmResult :=
  ⟨opt.symbol, opt.streamer_symbol, underlying_symbol, strUpper option_type,
   opt.strike_price, opt.expiration_date, opt.dte⟩

/-- `find_atm_option` (tasty_client.py lines 574-629), fetch effect
factored out: given the parsed chain (`None`/`{}` from a failed or empty
fetch both behave as the empty chain, returning `None`), filter by DTE
window and option type (`'C' if option_type.upper() == 'CALL' else 'P'`)
over expirations in ascending date order, then take
`min(valid_options, key=abs(strike - underlying_price))`. -/
def find_atm_option (chain : OptionChain) (today : ℤ)
    (symbol option_type : String) (underlying_price : ℚ)
    (days_to_exp_min days_to_exp_max : ℤ) : Option AtmResult :=
  let target_type := if strUpper option_type = "CALL" then "C" else "P"
  let valid_options :=
    validOptions chain today target_type days_to_exp_min days_to_exp_max
  (minByFirst (fun opt => |opt.strike_price - underlying_price|)
    valid_options).map (atmResult symbol option_type)

/-! ### Order placement (`tasty_client.py`, `place_order`) -/

/-- One leg of the order payload (lines 826-831). -/
structure OrderLeg where
  instrument_type : String
  symbol : String
  quantity : ℤ
  action : String
deriving DecidableEq, Repr

/-- The JSON order payload (lines 833-843).  `price` is present only for a
LIMIT order with a truthy limit price; `dry_run` models the "dry-run" key. -/
structure OrderPayload where
  time_in_force : String
  order_type : String
  legs : List OrderLeg
  price : Option ℚ
  dry_run : Bool
deriving DecidableEq, Repr

/-- The payload `place_order` builds (tasty_client.py lines 824-843).  The
"dry-run" key is set to `True` unconditionally on line 843. -/
def place_order_payload (option_symbol : String) (quantity : ℤ)
    (action order_type : String) (limit_price : Option ℚ) : OrderPayload :=
  let order_action := if strUpper action = "BUY" then "Buy to Open" else "Sell to Close"
  let leg : OrderLeg := ⟨"Equity Option", option_symbol, quantity, order_action⟩
  { time_in_force := "Day"
    order_type := strTitle order_type
    legs := [leg]
    price :=
      if strUpper order_type = "LIMIT" ∧ limit_price.getD 0 ≠ 0 then limit_price
      else none
    dry_run := true }

/-- The URL the order is posted to: the environment flag selects only the
base URL (lines 24-25, 43, 848). -/
def place_order_url (paper_trading : Bool) (account_number : String) : String :=
  (if paper_trading then "https://api.cert.tastyworks.com"
   else "https://api.tastyworks.com") ++ "/accounts/" ++ account_number ++ "/orders"

/-- The full request `place_order` submits: URL and payload. -/
def place_order_request (paper_trading : Bool) (account_number : String)
    (option_symbol : String) (quantity : ℤ) (action order_type : String)
    (limit_price : Option ℚ) : String × OrderPayload :=
  (place_order_url paper_trading account_number,
   place_order_payload option_symbol quantity action order_type limit_price)

/-- The broker response to the POST: HTTP status and the order id extracted
from the body (`data.order.id` or `data.id`), when present. -/
structure OrderResponse where
  status : ℤ
  order_id : Option String
deriving DecidableEq, Repr

/-- Result handling of `place_order` (tasty_client.py lines 818-873): `None`
when not authenticated or the status is not 200/201; the response id when
present; otherwise the substitute `"DRY_RUN_" + str(int(time.time()))`
(line 869).  `now` is the integer clock value. -/
def place_order (authenticated : Bool) (resp : OrderResponse) (now : ℤ) :
    Option String :=
  if authenticated = false then none
  else if resp.status = 200 ∨ resp.status = 201 then
    match resp.order_id with
    | some oid => some oid
    | none => some ("DRY_RUN_" ++ toString now)
  else none

/-! ### Trading engine (`trading_engine.py`) -/

/-- A row of the `price_cache` table (models/database.py lines 74-92), the
store behind `get_or_set_open_price`.  Dates (`date`, `expiration`) are the
formatted strings the engine writes; `timestamp` is a clock value. -/
structure PriceCacheRow where
  ticker : String
  option_symbol : String
  option_type : String
  strike : ℚ
  expiration : String
  date : String
  open_price : ℚ
  current_price : ℚ
  high_price : ℚ
  low_price : ℚ
  underlying_price : ℚ
  timestamp : ℚ
  interval_time : String
deriving DecidableEq, Repr

/-- The `filter_by(ticker=…, option_symbol=…, date=…)` predicate of
`get_or_set_open_price`. -/
def priceCacheKey (ticker option_symbol today : String)
    (r : PriceCacheRow) : Bool :=
  r.ticker == ticker && r.option_symbol == option_symbol && r.date == today

/-- Mutate the first row matching `p` (the row `.first()` returned), as the
ORM session does when the queried object is modified and committed. -/
def updateFirstRow (p : PriceCacheRow → Bool)
    (f : PriceCacheRow → PriceCacheRow) :
    List PriceCacheRow → List PriceCacheRow
  | [] => []
  | r :: rs => if p r then f r :: rs else r :: updateFirstRow p f rs

/-- `get_or_set_open_price` (trading_engine.py lines 71-138).  Effects made
explicit: `db` is the `price_cache` table, `today` the formatted current
date, `now` the clock, `interval_time` the formatted HH:MM.  Returns the
open price and the updated table.

The branches of the source, in order: a cached row whose `open_price` is
truthy and positive only has its `current_price`, `underlying_price` and
`timestamp` refreshed and its `open_price` is returned; with no cached row
a new row is inserted with `open_price = current_price`; a cached row with
non-positive `open_price` has open/current/high/low/underlying overwritten
with the observation.  The latter two return `current_price`. -/
def get_or_set_open_price (db : List PriceCacheRow)
    (ticker option_symbol option_type : String) (strike : ℚ)
    (expiration : String) (current_price underlying_price : ℚ)
    (today : String) (now : ℚ) (interval_time : String) :
    ℚ × List PriceCacheRow :=
  let key := priceCacheKey ticker option_symbol today
  match db.find? key with
  | some cached =>
      if 0 < cached.open_price then
        (cached.open_price,
         updateFirstRow key
           (fun c => { c with
              current_price := current_price
              underlying_price := underlying_price
              timestamp := now }) db)
      else
        (current_price,
         updateFirstRow key
           (fun c => { c with
              open_price := current_price
              current_price := current_price
              high_price := current_price
              low_price := current_price
              underlying_price := underlying_price }) db)
  | none =>
      (current_price,
       db ++ [⟨ticker, option_symbol, option_type, strike, expiration, today,
               current_price, current_price, current_price, current_price,
               underlying_price, now, interval_time⟩])

/-- The per-ticker configuration dict built in `process_ticker`
(trading_engine.py lines 333-338), from the `tickers` table. -/
structure TickerConfig where
  symbol : String
  threshold : ℚ
  max_positions : ℕ
  capital_per_trade : ℚ
deriving DecidableEq, Repr

/-- The signal dict returned by `check_entry_signal` (lines 219-229). -/
structure Signal where
  ticker : String
  option_symbol : String
  option_type : String
  strike : ℚ
  expiration : String
  entry_price : ℚ
  open_price : ℚ
  pct_change : ℚ
  underlying_price : ℚ
deriving DecidableEq, Repr

/-- `check_entry_signal` (trading_engine.py lines 140-235), with the client
calls factored out as inputs: `underlying_price` from
`get_underlying_price` (a falsy 0.0 is rejected like `None` by
`if not underlying_price`), `atm` from `find_atm_option`, `quote` from
`get_option_quote` (rejected when missing or `mark <= 0`).  The open price
is resolved through `get_or_set_open_price` on the `price_cache` table
`db`, and the signal fires when `pct_change >= threshold`.  Returns the
optional signal and the updated table. -/
def check_entry_signal (cfg : TickerConfig) (option_type : String)
    (underlying_price : Option ℚ) (atm : Option AtmResult)
    (quote : Option OptionQuote) (db : List PriceCacheRow)
    (today : String) (now : ℚ) (interval_time : String) :
    Option Signal × List PriceCacheRow :=
  match underlying_price with
  | none => (none, db)
  | some u =>
    if u = 0 then (none, db)
    else
      match atm with
      | none => (none, db)
      | some option =>
        match quote with
        | none => (none, db)
        | some quote =>
          if quote.mark ≤ 0 then (none, db)
          else
            let current_price := quote.mark
            let r := get_or_set_open_price db cfg.symbol option.symbol
              option_type option.strike (toString option.expiration)
              current_price u today now interval_time
            let open_price := r.1
            if open_price ≤ 0 then (none, r.2)
            else
              let pct_change := (current_price - open_price) / open_price * 100
              if cfg.threshold ≤ pct_change then
                (some ⟨cfg.symbol, option.symbol, option_type, option.strike,
                       toString option.expiration, current_price, open_price,
                       pct_change, u⟩, r.2)
              else (none, r.2)

/-- A row of the `trades` table (models/database.py lines 27-47), as created
by `execute_trade`; columns that are only written later (exit price, P&L,
notes) are omitted. -/
structure TradeRow where
  ticker : String
  option_type : String
  option_symbol : String
  strike : ℚ
  expiration : String
  entry_price : ℚ
  quantity : ℤ
  status : String
  open_price_ref : ℚ
  order_id : String
  entry_time : ℚ
deriving DecidableEq, Repr

/-- The open-position-for-this-exact-option predicate of `execute_trade`
(`filter_by(ticker=…, option_symbol=…, status='OPEN')`, lines 251-255). -/
def openPairPred (signal : Signal) (t : TradeRow) : Bool :=
  t.ticker == signal.ticker && t.option_symbol == signal.option_symbol &&
    t.status == "OPEN"

/-- The open-positions-for-this-ticker predicate of `execute_trade`
(`filter_by(ticker=…, status='OPEN')`, lines 262-265). -/
def openTickerPred (signal : Signal) (t : TradeRow) : Bool :=
  t.ticker == signal.ticker && t.status == "OPEN"

/-- `execute_trade` (trading_engine.py lines 237-319), with the `trades`
table `db` and the broker interaction (`authenticated`, the HTTP response
`resp`, the integer clock `order_now` used for the substitute id and the
clock `entry_now` stamped on the new row) made explicit.

Guards in source order: an existing OPEN trade for the exact
(ticker, option_symbol) returns False; an OPEN-trade count for the ticker
at or above `max_positions` returns False.  Then
`quantity = max(1, int(capital_per_trade / (entry_price * 100)))` — a zero
`cost_per_contract` raises ZeroDivisionError in Python, caught by the
`except` which rolls back and returns False — the order is placed, a
falsy order id returns False, and otherwise the new OPEN row is inserted
and True returned. -/
def execute_trade (db : List TradeRow) (signal : Signal) (cfg : TickerConfig)
    (authenticated : Bool) (resp : OrderResponse) (order_now : ℤ)
    (entry_now : ℚ) : Bool × List TradeRow :=
  if (db.find? (openPairPred signal)).isSome then (false, db)
  else if cfg.max_positions ≤ (db.filter (openTickerPred signal)).length then
    (false, db)
  else
    let cost_per_contract := signal.entry_price * 100
    if cost_per_contract = 0 then (false, db)
    else
      let quantity := max 1 (pyInt (cfg.capital_per_trade / cost_per_contract))
      match place_order authenticated resp order_now with
      | none => (false, db)
      | some order_id =>
          (true,
           db ++ [⟨signal.ticker, signal.option_type, signal.option_symbol,
                   signal.strike, signal.expiration, signal.entry_price,
                   quantity, "OPEN", signal.open_price, order_id, entry_now⟩])

/-! ### Concrete inputs used to exercise the model -/

/-- A ticker configuration with the documented defaults: threshold 0.5%,
max_positions 2, capital 500. -/
def cfgEx : TickerConfig := ⟨"SPY", mkRat 1 2, 2, 500⟩

/-- The same ticker configuration with threshold 0.51%. -/
def cfgEx51 : TickerConfig := ⟨"SPY", mkRat 51 100, 2, 500⟩

/-- An ATM result for the SPY call at strike 370. -/
def atmEx : AtmResult :=
  ⟨"SPY   251031C00370000", ".SPY251031C370", "SPY", "CALL", 370, 20251031, 5⟩

/-- A signal at entry price 2.37 (the quantity-sizing example). -/
def sigEx237 : Signal :=
  ⟨"SPY", "SPY   251031C00370000", "CALL", 370, "2025-10-31", mkRat 237 100,
   100, 1, 500⟩

/-- The same signal at entry price 6.00. -/
def sigEx600 : Signal :=
  ⟨"SPY", "SPY   251031C00370000", "CALL", 370, "2025-10-31", 6, 100, 1, 500⟩

/-- A signal at entry price 1. -/
def sigEx1 : Signal :=
  ⟨"SPY", "SPY   251031C00370000", "CALL", 370, "2025-10-31", 1, 100, 1, 500⟩

/-- Two existing OPEN trades on SPY (other instruments). -/
def dbTwoOpen : List TradeRow :=
  [⟨"SPY", "CALL", "SPY   251031C00365000", 365, "2025-10-31", 2, 1, "OPEN",
    100, "1", 0⟩,
   ⟨"SPY", "PUT", "SPY   251031P00375000", 375, "2025-10-31", 2, 1, "OPEN",
    100, "2", 0⟩]

/-- One existing OPEN trade for exactly the instrument of `sigEx1`. -/
def dbPairOpen : List TradeRow :=
  [⟨"SPY", "CALL", "SPY   251031C00370000", 370, "2025-10-31", 2, 1, "OPEN",
    100, "1", 0⟩]

/-- A price-cache row holding an already-set positive open price of 100. -/
def rowOpen100 : PriceCacheRow :=
  ⟨"SPY", "SPY   251031C00370000", "CALL", 370, "2025-10-31", "2025-10-20",
   100, 100, 100, 100, 500, 0, "09:30"⟩

/-- A cache entry holding bid 1.0 / ask 1.2 (so cached mark 1.1) for the
quote-merge example. -/
def entryBidAsk : CacheEntry :=
  ⟨some 1, some (mkRat 6 5), none, some (mkRat 11 10), some 0⟩

/-- A quote cache holding `entryBidAsk` for the SPY call streamer symbol. -/
def cacheEx : QuoteCache := [(".SPY251031C370", entryBidAsk)]

/-- One Quote event: bid 2, ask 4 for symbol ".A". -/
def eventsQuote24 : List (ℚ × FeedEvent) := [(0, FeedEvent.quote ".A" 2 4)]

/-- The quote `get_option_quote` derives from `eventsQuote24`. -/
def quoteEx3 : OptionQuote := ⟨".A", 2, 4, 0, 3⟩

/-- A quote at mark 100.5 (the threshold-boundary example). -/
def quoteEx1005 : OptionQuote :=
  ⟨".SPY251031C370", 100, 101, mkRat 201 2, mkRat 201 2⟩

/-- An option chain with strikes 95, 100, 105 on one expiration
(day 3 relative to `today = 0`). -/
def chainEx955 : OptionChain :=
  [(3, [⟨"C95", ".C95", "C", 95, 3, 3⟩, ⟨"C100", ".C100", "C", 100, 3, 3⟩,
        ⟨"C105", ".C105", "C", 105, 3, 3⟩])]

/-- An option chain with the tie-distance strikes 98 and 102. -/
def chainEx98102 : OptionChain :=
  [(3, [⟨"C98", ".C98", "C", 98, 3, 3⟩, ⟨"C102", ".C102", "C", 102, 3, 3⟩])]

/-- A 201 placement response carrying an order id. -/
def respOk : OrderResponse := ⟨201, some "42"⟩

/-- A 201 placement response whose body carries no order id. -/
def respNoId : OrderResponse := ⟨201, none⟩

/-- A rejected placement response (HTTP 500). -/
def respBad : OrderResponse := ⟨500, none⟩

/-- The trade row `execute_trade` records for `sigEx1` when the 201
response carries no order id and the clock reads 7. -/
def trNoId : TradeRow :=
  ⟨"SPY", "CALL", "SPY   251031C00370000", 370, "2025-10-31", 1, 5, "OPEN",
   100, "DRY_RUN_7", 0⟩

/-! ### Helper lemmas -/

lemma lookupEntry_updateEntry_self (c : QuoteCache) (s : String)
    (e : CacheEntry) : lookupEntry (updateEntry c s e) s = some e := by
  induction c with
  | nil => simp [updateEntry, lookupEntry]
  | cons kv rest ih =>
      obtain ⟨k, v⟩ := kv
      by_cases h : k = s
      · simp [updateEntry, lookupEntry, h]
      · simp [updateEntry, lookupEntry, h, ih]

lemma lookupEntry_updateEntry_other (c : QuoteCache) (s s' : String)
    (e : CacheEntry) (h : s' ≠ s) :
    lookupEntry (updateEntry c s e) s' = lookupEntry c s' := by
  induction c with
  | nil =>
      have : ¬ s = s' := fun hc => h hc.symm
      simp [updateEntry, lookupEntry, this]
  | cons kv rest ih =>
      obtain ⟨k, v⟩ := kv
      by_cases hk : k = s
      · subst hk
        have : ¬ k = s' := fun hc => h hc.symm
        simp [updateEntry, lookupEntry, this]
      · simp [updateEntry, lookupEntry, hk, ih]

lemma updateFirstRow_map_open_price (p : PriceCacheRow → Bool)
    (f : PriceCacheRow → PriceCacheRow)
    (hf : ∀ r, (f r).open_price = r.open_price) (db : List PriceCacheRow) :
    (updateFirstRow p f db).map (fun r => r.open_price) =
      db.map (fun r => r.open_price) := by
  induction db with
  | nil => rfl
  | cons r rs ih =>
      by_cases h : p r
      · simp [updateFirstRow, h, hf]
      · simp [updateFirstRow, h, ih]

lemma max_one_pyInt_eq_floor (q : ℚ) : max 1 (pyInt q) = max 1 ⌊q⌋ := by
  rw [pyInt]
  by_cases h : q < 0
  · rw [if_pos h]
    have hfloor : ⌊q⌋ ≤ 0 := by
      have := Int.floor_le_floor h.le
      simpa using this
    have hneg : (0 : ℤ) ≤ ⌊-q⌋ := by
      have h0 : (0 : ℚ) ≤ -q := by linarith
      exact Int.floor_nonneg.mpr h0
    have h1 : max 1 (-⌊-q⌋) = 1 := max_eq_left (by omega)
    have h2 : max 1 ⌊q⌋ = 1 := max_eq_left (by omega)
    rw [h1, h2]
  · rw [if_neg h]

lemma foldlMin_decomp {α : Type} (f : α → ℚ) :
    ∀ (xs : List α) (x : α),
      ∃ l₁ l₂, x :: xs =
          l₁ ++ (xs.foldl (fun b y => if f y < f b then y else b) x) :: l₂ ∧
        (∀ b ∈ x :: xs,
          f (xs.foldl (fun b y => if f y < f b then y else b) x) ≤ f b) ∧
        (∀ b ∈ l₁,
          f (xs.foldl (fun b y => if f y < f b then y else b) x) < f b) := by
  intro xs
  induction xs with
  | nil =>
      intro x
      exact ⟨[], [], rfl, by simp, by simp⟩
  | cons y ys ih =>
      intro x
      by_cases h : f y < f x
      · obtain ⟨l₁, l₂, hdec, hmin, hstrict⟩ := ih y
        have hstep : (y :: ys).foldl (fun b y => if f y < f b then y else b) x =
            ys.foldl (fun b y => if f y < f b then y else b) y := by
          rw [List.foldl_cons, if_pos h]
        rw [hstep]
        refine ⟨x :: l₁, l₂, ?_, ?_, ?_⟩
        · rw [List.cons_append, ← hdec]
        · intro b hb
          rcases List.mem_cons.mp hb with hb | hb
          · subst hb
            exact le_of_lt (lt_of_le_of_lt (hmin y (List.mem_cons_self _ _)) h)
          · exact hmin b hb
        · intro b hb
          rcases List.mem_cons.mp hb with hb | hb
          · subst hb
            exact lt_of_le_of_lt (hmin y (List.mem_cons_self _ _)) h
          · exact hstrict b hb
      · obtain ⟨l₁, l₂, hdec, hmin, hstrict⟩ := ih x
        have hstep : (y :: ys).foldl (fun b y => if f y < f b then y else b) x =
            ys.foldl (fun b y => if f y < f b then y else b) x := by
          rw [List.foldl_cons, if_neg h]
        rw [hstep]
        have hxy : f x ≤ f y := not_lt.mp h
        cases l₁ with
        | nil =>
            rw [List.nil_append] at hdec
            have hax : ys.foldl (fun b y => if f y < f b then y else b) x = x :=
              (List.cons.injEq _ _ _ _ ▸ hdec).1.symm
            refine ⟨[], y :: ys, by rw [List.nil_append, hax], ?_, by simp⟩
            intro b hb
            rcases List.mem_cons.mp hb with hb | hb
            · subst hb
              exact hmin _ (List.mem_cons_self _ _)
            · rcases List.mem_cons.mp hb with hb | hb
              · subst hb
                rw [hax]
                exact hxy
              · exact hmin b (List.mem_cons_of_mem _ hb)
        | cons x' l₁' =>
            rw [List.cons_append] at hdec
            have hx'x : x = x' := (List.cons.injEq _ _ _ _ ▸ hdec).1
            have hys : ys = l₁' ++
                (ys.foldl (fun b y => if f y < f b then y else b) x) :: l₂ :=
              (List.cons.injEq _ _ _ _ ▸ hdec).2
            have hafx : f (ys.foldl (fun b y => if f y < f b then y else b) x) < f x := by
              have := hstrict x' (List.mem_cons_self _ _)
              rwa [← hx'x] at this
            refine ⟨x :: y :: l₁', l₂, ?_, ?_, ?_⟩
            · rw [List.cons_append, List.cons_append, ← hys]
            · intro b hb
              rcases List.mem_cons.mp hb with hb | hb
              · subst hb
                exact hafx.le
              · rcases List.mem_cons.mp hb with hb | hb
                · subst hb
                  exact le_trans hafx.le hxy
                · exact hmin b (List.mem_cons_of_mem _ hb)
            · intro b hb
              rcases List.mem_cons.mp hb with hb | hb
              · subst hb
                exact hafx
              · rcases List.mem_cons.mp hb with hb | hb
                · subst hb
                  exact lt_of_lt_of_le hafx hxy
                · exact hstrict b (List.mem_cons_of_mem _ hb)

lemma minByFirst_decomp {α : Type} (f : α → ℚ) (l : List α) (a : α)
    (h : minByFirst f l = some a) :
    ∃ l₁ l₂, l = l₁ ++ a :: l₂ ∧ (∀ b ∈ l, f a ≤ f b) ∧
      (∀ b ∈ l₁, f a < f b) := by
  cases l with
  | nil => simp [minByFirst] at h
  | cons x xs =>
      have hfold : xs.foldl (fun b y => if f y < f b then y else b) x = a := by
        simpa [minByFirst] using h
      obtain ⟨l₁, l₂, hdec, hmin, hstrict⟩ := foldlMin_decomp f xs x
      rw [hfold] at hdec hmin hstrict
      exact ⟨l₁, l₂, hdec, hmin, hstrict⟩

lemma insertByDate_perm (p : ℤ × List ChainOption)
    (l : List (ℤ × List ChainOption)) :
    List.Perm (insertByDate p l) (p :: l) := by
  induction l with
  | nil => rfl
  | cons q qs ih =>
      by_cases h : q.1 ≤ p.1
      · rw [insertByDate, if_pos h]
        exact List.Perm.trans (List.Perm.cons q ih) (List.Perm.swap p q qs)
      · rw [insertByDate, if_neg h]

lemma sortChain_perm (chain : OptionChain) :
    List.Perm (sortChain chain) chain := by
  induction chain with
  | nil => rfl
  | cons p ps ih =>
      exact List.Perm.trans (insertByDate_perm p (sortChain ps))
        (List.Perm.cons p ih)

lemma mem_validOptions (chain : OptionChain) (today : ℤ)
    (target_type : String) (dmin dmax : ℤ) (o : ChainOption) :
    o ∈ validOptions chain today target_type dmin dmax ↔
      ∃ exp opts, (exp, opts) ∈ chain ∧ o ∈ opts ∧
        dmin ≤ exp - today ∧ exp - today ≤ dmax ∧
        o.option_type = target_type := by
  rw [validOptions, List.mem_flatMap]
  constructor
  · rintro ⟨p, hp, ho⟩
    by_cases hd : dmin ≤ p.1 - today ∧ p.1 - today ≤ dmax
    · rw [if_pos hd] at ho
      obtain ⟨hmem, htype⟩ := List.mem_filter.mp ho
      exact ⟨p.1, p.2, (sortChain_perm chain).mem_iff.mp hp, hmem, hd.1, hd.2,
             by simpa using htype⟩
    · rw [if_neg hd] at ho
      simp at ho
  · rintro ⟨exp, opts, hmem, ho, h1, h2, htype⟩
    refine ⟨(exp, opts), (sortChain_perm chain).mem_iff.mpr hmem, ?_⟩
    rw [if_pos ⟨h1, h2⟩]
    exact List.mem_filter.mpr ⟨ho, by simpa using htype⟩

lemma applyEvent_consistent (ts : ℚ) (c : QuoteCache) (ev : FeedEvent)
    (hc : cacheConsistent c) : cacheConsistent (applyEvent ts c ev) := by
  cases ev with
  | quote sym bid ask =>
      intro s' e' h'
      by_cases hs : s' = sym
      · subst hs
        rw [applyEvent, lookupEntry_updateEntry_self] at h'
        rw [← Option.some_inj.mp h']
        by_cases hba : 0 < bid ∧ 0 < ask
        · simp [entryMarkConsistent, hba]
        · simp [entryMarkConsistent, hba]
      · rw [applyEvent, lookupEntry_updateEntry_other _ _ _ _ hs] at h'
        exact hc s' e' h'
  | trade sym p =>
      intro s' e' h'
      by_cases hs : s' = sym
      · subst hs
        rw [applyEvent, lookupEntry_updateEntry_self] at h'
        rw [← Option.some_inj.mp h']
        cases hold : lookupEntry c s' with
        | none => simp [hold, entryMarkConsistent, emptyEntry]
        | some eold =>
            have heold := hc s' eold hold
            rw [entryMarkConsistent] at heold ⊢
            simpa [hold] using heold
      · rw [applyEvent, lookupEntry_updateEntry_other _ _ _ _ hs] at h'
        exact hc s' e' h'

lemma applyEvents_consistent (events : List (ℚ × FeedEvent)) :
    cacheConsistent (applyEvents events) := by
  rw [applyEvents]
  have key : ∀ (c : QuoteCache), cacheConsistent c →
      cacheConsistent (events.foldl (fun c te => applyEvent te.1 c te.2) c) := by
    induction events with
    | nil => intro c hc; exact hc
    | cons te rest ih =>
        intro c hc
        exact ih _ (applyEvent_consistent te.1 c te.2 hc)
  refine key [] ?_
  intro s e h
  simp [lookupEntry] at h

/-! ### Claims -/

/-- Claim C2: for every invocation of place_order — any environment flag,
account, symbol, quantity, action, order type and limit price — the
submitted payload has its "dry-run" field set to true, so no live order is
ever submitted by this client. -/
theorem place_order_always_dry_run (paper_trading : Bool)
    (account_number option_symbol : String) (quantity : ℤ)
    (action order_type : String) (limit_price : Option ℚ) :
    ((place_order_request paper_trading account_number option_symbol quantity
        action order_type limit_price).2).dry_run = true := rfl

/-- Claim C3 (failing-input evaluation): with the subscribed-symbol set
holding ".SPY251031C370" when the transport closes, the cleanup leaves the
set intact, a fresh handshake sends no subscription frame at all, and a
subsequent subscribe request for that symbol is swallowed by the delta
check — so the set re-subscribed after reconnect is empty, not the
pre-disconnect set, contradicting the claimed re-subscription. -/
theorem reconnect_resubscribes_nothing :
    websocket_handler_cleanup [".SPY251031C370"] = [".SPY251031C370"] ∧
    framesSubscribedSet (websocket_handler_sent_frames "token" 1) = [] ∧
    (subscribe_symbols 1 (websocket_handler_cleanup [".SPY251031C370"])
        [".SPY251031C370"]).1 = [] ∧
    ([".SPY251031C370"] : List String) ≠ [] := by
  refine ⟨rfl, rfl, ?_, by decide⟩
  decide

/-- Claim C7: execute_trade returns false and records nothing both when an
OPEN trade already exists for the exact (ticker, option_symbol) pair and
when the OPEN-trade count for the ticker has reached max_positions. -/
theorem execute_trade_guards (db : List TradeRow) (signal : Signal)
    (cfg : TickerConfig) (authenticated : Bool) (resp : OrderResponse)
    (order_now : ℤ) (entry_now : ℚ) :
    ((db.find? (openPairPred signal)).isSome →
      execute_trade db signal cfg authenticated resp order_now entry_now =
        (false, db)) ∧
    (cfg.max_positions ≤ (db.filter (openTickerPred signal)).length →
      execute_trade db signal cfg authenticated resp order_now entry_now =
        (false, db)) := by
  constructor
  · intro h
    rw [execute_trade, if_pos h]
  · intro h
    by_cases h1 : (db.find? (openPairPred signal)).isSome
    · rw [execute_trade, if_pos h1]
    · rw [execute_trade, if_neg h1, if_pos h]

/-- Witness for C7: with max_positions = 2 and two existing OPEN SPY
trades a qualifying signal records nothing, and likewise when an OPEN
trade already exists for the exact instrument. -/
theorem execute_trade_guards_witness :
    execute_trade dbTwoOpen sigEx1 cfgEx true respOk 0 0 = (false, dbTwoOpen) ∧
    execute_trade dbPairOpen sigEx1 cfgEx true respOk 0 0 = (false, dbPairOpen) :=
  ⟨(execute_trade_guards dbTwoOpen sigEx1 cfgEx true respOk 0 0).2 (by decide),
   (execute_trade_guards dbPairOpen sigEx1 cfgEx true respOk 0 0).1 (by decide)⟩

/-- Claim C8: whenever execute_trade succeeds with a positive entry price,
the recorded quantity is max(1, floor(capital_per_trade /
(entry_price * 100))) — Python int() truncation agrees with floor under
the outer max with 1. -/
theorem execute_trade_quantity (db : List TradeRow) (signal : Signal)
    (cfg : TickerConfig) (authenticated : Bool) (resp : OrderResponse)
    (order_now : ℤ) (entry_now : ℚ) (hpos : 0 < signal.entry_price) :
    ∀ db', execute_trade db signal cfg authenticated resp order_now entry_now =
        (true, db') →
      ∃ tr, db' = db ++ [tr] ∧
        tr.quantity =
          max 1 ⌊cfg.capital_per_trade / (signal.entry_price * 100)⌋ := by
  intro db' h
  rw [execute_trade] at h
  by_cases h1 : (db.find? (openPairPred signal)).isSome
  · rw [if_pos h1] at h
    simp at h
  rw [if_neg h1] at h
  by_cases h2 : cfg.max_positions ≤ (db.filter (openTickerPred signal)).length
  · rw [if_pos h2] at h
    simp at h
  rw [if_neg h2] at h
  by_cases h3 : signal.entry_price * 100 = 0
  · rw [if_pos h3] at h
    simp at h
  rw [if_neg h3] at h
  cases hord : place_order authenticated resp order_now with
  | none =>
      rw [hord] at h
      simp at h
  | some oid =>
      rw [hord] at h
      simp only [Prod.mk.injEq] at h
      obtain ⟨-, hdb⟩ := h
      exact ⟨_, hdb.symm, max_one_pyInt_eq_floor _⟩

/-- Witness for C8: capital 500 with entry 2.37 yields quantity 2
(floor(500/237) = 2), and entry 6.00 yields quantity 1 (floor(500/600) = 0
clamped up to 1). -/
theorem execute_trade_quantity_witness :
    (0 : ℚ) < sigEx237.entry_price ∧ (0 : ℚ) < sigEx600.entry_price ∧
    (∃ tr, (execute_trade [] sigEx237 cfgEx true respOk 0 0).2 = [] ++ [tr] ∧
      tr.quantity =
        max 1 ⌊cfgEx.capital_per_trade / (sigEx237.entry_price * 100)⌋) ∧
    max 1 ⌊cfgEx.capital_per_trade / (sigEx237.entry_price * 100)⌋ = 2 ∧
    (∃ tr, (execute_trade [] sigEx600 cfgEx true respOk 0 0).2 = [] ++ [tr] ∧
      tr.quantity =
        max 1 ⌊cfgEx.capital_per_trade / (sigEx600.entry_price * 100)⌋) ∧
    max 1 ⌊cfgEx.capital_per_trade / (sigEx600.entry_price * 100)⌋ = 1 := by
  have h237 : execute_trade [] sigEx237 cfgEx true respOk 0 0 =
      (true, (execute_trade [] sigEx237 cfgEx true respOk 0 0).2) := by
    have h1 : (execute_trade [] sigEx237 cfgEx true respOk 0 0).1 = true := by
      norm_num [execute_trade, sigEx237, cfgEx, respOk, place_order,
        openPairPred, openTickerPred, Rat.mkRat_eq_div]
    calc execute_trade [] sigEx237 cfgEx true respOk 0 0 =
        ((execute_trade [] sigEx237 cfgEx true respOk 0 0).1,
         (execute_trade [] sigEx237 cfgEx true respOk 0 0).2) := Prod.mk.eta.symm
      _ = (true, (execute_trade [] sigEx237 cfgEx true respOk 0 0).2) := by
          rw [h1]
  have h600 : execute_trade [] sigEx600 cfgEx true respOk 0 0 =
      (true, (execute_trade [] sigEx600 cfgEx true respOk 0 0).2) := by
    have h1 : (execute_trade [] sigEx600 cfgEx true respOk 0 0).1 = true := by
      norm_num [execute_trade, sigEx600, cfgEx, respOk, place_order,
        openPairPred, openTickerPred]
    calc execute_trade [] sigEx600 cfgEx true respOk 0 0 =
        ((execute_trade [] sigEx600 cfgEx true respOk 0 0).1,
         (execute_trade [] sigEx600 cfgEx true respOk 0 0).2) := Prod.mk.eta.symm
      _ = (true, (execute_trade [] sigEx600 cfgEx true respOk 0 0).2) := by
          rw [h1]
  refine ⟨by decide, by decide, ?_, ?_, ?_, ?_⟩
  · exact execute_trade_quantity [] sigEx237 cfgEx true respOk 0 0
      (by decide) _ h237
  · norm_num [cfgEx, sigEx237, Rat.mkRat_eq_div]
  · exact execute_trade_quantity [] sigEx600 cfgEx true respOk 0 0
      (by decide) _ h600
  · norm_num [cfgEx, sigEx600]

lemma execute_trade_noid_eval :
    execute_trade [] sigEx1 cfgEx true respNoId 7 0 = (true, [trNoId]) := by
  have hord : place_order true respNoId 7 = some "DRY_RUN_7" := by decide
  rw [execute_trade]
  norm_num [sigEx1, cfgEx, openPairPred, openTickerPred, hord, pyInt, trNoId]

/-- Claim C1 (amended): execute_trade returns false and records no trade
exactly when place_order yields None — not authenticated or a non-2xx
placement status; a 2xx response that lacks an order id, however, is given
the substitute identifier DRY_RUN_(clock) by place_order, and any
resulting successful execution records the position with that substitute
identifier. -/
theorem execute_trade_order_id_handling (db : List TradeRow) (signal : Signal)
    (cfg : TickerConfig) (authenticated : Bool) (resp : OrderResponse)
    (order_now : ℤ) (entry_now : ℚ) :
    (place_order authenticated resp order_now = none →
      execute_trade db signal cfg authenticated resp order_now entry_now =
        (false, db)) ∧
    (resp.order_id = none →
      ∀ db', execute_trade db signal cfg authenticated resp order_now entry_now =
          (true, db') →
        ∃ tr, db' = db ++ [tr] ∧
          tr.order_id = "DRY_RUN_" ++ toString order_now) := by
  constructor
  · intro hnone
    rw [execute_trade]
    by_cases h1 : (db.find? (openPairPred signal)).isSome
    · rw [if_pos h1]
    · rw [if_neg h1]
      by_cases h2 : cfg.max_positions ≤ (db.filter (openTickerPred signal)).length
      · rw [if_pos h2]
      · rw [if_neg h2]
        by_cases h3 : signal.entry_price * 100 = 0
        · rw [if_pos h3]
        · rw [if_neg h3, hnone]
  · intro hid db' h
    rw [execute_trade] at h
    by_cases h1 : (db.find? (openPairPred signal)).isSome
    · rw [if_pos h1] at h
      simp at h
    rw [if_neg h1] at h
    by_cases h2 : cfg.max_positions ≤ (db.filter (openTickerPred signal)).length
    · rw [if_pos h2] at h
      simp at h
    rw [if_neg h2] at h
    by_cases h3 : signal.entry_price * 100 = 0
    · rw [if_pos h3] at h
      simp at h
    rw [if_neg h3] at h
    cases hord : place_order authenticated resp order_now with
    | none =>
        rw [hord] at h
        simp at h
    | some oid =>
        rw [hord] at h
        simp only [Prod.mk.injEq] at h
        obtain ⟨-, hdb⟩ := h
        have hoid : oid = "DRY_RUN_" ++ toString order_now := by
          rw [place_order] at hord
          by_cases ha : authenticated = false
          · rw [if_pos ha] at hord
            exact absurd hord (by simp)
          · rw [if_neg ha] at hord
            by_cases hs : resp.status = 200 ∨ resp.status = 201
            · rw [if_pos hs, hid] at hord
              exact (Option.some_inj.mp hord).symm
            · rw [if_neg hs] at hord
              exact absurd hord (by simp)
        exact ⟨_, hdb.symm, hoid⟩

/-- Counterexample to claim C1 as stated: the 201 placement response
respNoId carries no order id, yet execute_trade reports success and
records a new position whose order id is the substitute "DRY_RUN_7" —
not a failure with no position recorded. -/
theorem execute_trade_substitute_id_counterexample :
    respNoId.order_id = none ∧
    execute_trade [] sigEx1 cfgEx true respNoId 7 0 = (true, [trNoId]) ∧
    trNoId.order_id = "DRY_RUN_7" :=
  ⟨rfl, execute_trade_noid_eval, rfl⟩

/-- Witness for C1 (amended): a 500 response makes place_order yield None
and execute_trade fail with no new row, while the id-less 201 response
yields a recorded position carrying DRY_RUN_7. -/
theorem execute_trade_order_id_handling_witness :
    place_order true respBad 0 = none ∧
    execute_trade [] sigEx1 cfgEx true respBad 0 0 = (false, []) ∧
    respNoId.order_id = none ∧
    (∃ tr, [trNoId] = [] ++ [tr] ∧
      tr.order_id = "DRY_RUN_" ++ toString (7 : ℤ)) := by
  refine ⟨by decide, ?_, rfl, ?_⟩
  · exact (execute_trade_order_id_handling [] sigEx1 cfgEx true respBad 0 0).1
      (by decide)
  · exact (execute_trade_order_id_handling [] sigEx1 cfgEx true respNoId 7 0).2
      rfl [trNoId] execute_trade_noid_eval

/-- Claim C4 (amended): once a positive open price has been stored for a
(ticker, option_symbol, day) key, every later call on the same day —
whatever current price it observes — returns that stored open price and
leaves the stored open_price of every row unchanged; a stored non-positive
open price, however, is treated as absent and overwritten by the next
observation. -/
theorem get_or_set_open_price_first_write_wins (db : List PriceCacheRow)
    (ticker option_symbol option_type : String) (strike : ℚ)
    (expiration : String) (current_price underlying_price : ℚ)
    (today : String) (now : ℚ) (interval_time : String) (c : PriceCacheRow)
    (hfind : db.find? (priceCacheKey ticker option_symbol today) = some c)
    (hpos : 0 < c.open_price) :
    (get_or_set_open_price db ticker option_symbol option_type strike
        expiration current_price underlying_price today now interval_time).1 =
      c.open_price ∧
    ((get_or_set_open_price db ticker option_symbol option_type strike
        expiration current_price underlying_price today now
        interval_time).2).map (fun r => r.open_price) =
      db.map (fun r => r.open_price) := by
  simp only [get_or_set_open_price, hfind]
  rw [if_pos hpos]
  refine ⟨rfl, ?_⟩
  exact updateFirstRow_map_open_price (priceCacheKey ticker option_symbol today)
    (fun c => { c with
      current_price := current_price
      underlying_price := underlying_price
      timestamp := now }) (fun r => rfl) db

/-- Counterexample to claim C4 as stated: a first observation of 0 stores
open price 0 for the key; a later same-day call observing 5 does not
return the stored 0, it returns 5 and overwrites the stored open price
with 5. -/
theorem get_or_set_open_price_overwrite_counterexample :
    ((get_or_set_open_price [] "SPY" "OPT" "CALL" 100 "E" 0 500 "D" 0
        "09:30").2).map (fun r => r.open_price) = [0] ∧
    (get_or_set_open_price
        ((get_or_set_open_price [] "SPY" "OPT" "CALL" 100 "E" 0 500 "D" 0
          "09:30").2)
        "SPY" "OPT" "CALL" 100 "E" 5 500 "D" 1 "09:35").1 = 5 ∧
    ((get_or_set_open_price
        ((get_or_set_open_price [] "SPY" "OPT" "CALL" 100 "E" 0 500 "D" 0
          "09:30").2)
        "SPY" "OPT" "CALL" 100 "E" 5 500 "D" 1 "09:35").2).map
      (fun r => r.open_price) = [5] := by
  refine ⟨?_, ?_, ?_⟩ <;> decide

/-- Witness for C4 (amended): with a stored positive open price of 100, a
later call observing 7 returns 100 and leaves the stored open price
at 100. -/
theorem get_or_set_open_price_first_write_wins_witness :
    (get_or_set_open_price [rowOpen100] "SPY" "SPY   251031C00370000" "CALL"
        370 "2025-10-31" 7 500 "2025-10-20" 1 "10:00").1 = 100 ∧
    ((get_or_set_open_price [rowOpen100] "SPY" "SPY   251031C00370000" "CALL"
        370 "2025-10-31" 7 500 "2025-10-20" 1 "10:00").2).map
      (fun r => r.open_price) = [100] :=
  get_or_set_open_price_first_write_wins [rowOpen100] "SPY"
    "SPY   251031C00370000" "CALL" 370 "2025-10-31" 7 500 "2025-10-20" 1
    "10:00" rowOpen100 (by decide) (by decide)

/-- Claim C5: when check_entry_signal resolves a positive current mark and
a positive open price, it returns a signal iff
(mark - open) / open * 100 >= threshold, with the boundary inclusive; and
it returns no signal when the resolved open price is non-positive. -/
theorem check_entry_signal_threshold (cfg : TickerConfig)
    (option_type : String) (u : ℚ) (atm : AtmResult) (q : OptionQuote)
    (db : List PriceCacheRow) (today : String) (now : ℚ)
    (interval_time : String) (hu : u ≠ 0) (hq : 0 < q.mark) :
    (0 < (get_or_set_open_price db cfg.symbol atm.symbol option_type
        atm.strike (toString atm.expiration) q.mark u today now
        interval_time).1 →
      ((check_entry_signal cfg option_type (some u) (some atm) (some q) db
          today now interval_time).1.isSome ↔
        cfg.threshold ≤
          (q.mark - (get_or_set_open_price db cfg.symbol atm.symbol
              option_type atm.strike (toString atm.expiration) q.mark u today
              now interval_time).1) /
            (get_or_set_open_price db cfg.symbol atm.symbol option_type
              atm.strike (toString atm.expiration) q.mark u today now
              interval_time).1 * 100)) ∧
    ((get_or_set_open_price db cfg.symbol atm.symbol option_type atm.strike
        (toString atm.expiration) q.mark u today now interval_time).1 ≤ 0 →
      (check_entry_signal cfg option_type (some u) (some atm) (some q) db
        today now interval_time).1 = none) := by
  rw [check_entry_signal]
  rw [if_neg hu, if_neg (not_le.mpr hq)]
  constructor
  · intro hop
    rw [if_neg (not_le.mpr hop)]
    by_cases ht : cfg.threshold ≤
        (q.mark - (get_or_set_open_price db cfg.symbol atm.symbol option_type
            atm.strike (toString atm.expiration) q.mark u today now
            interval_time).1) /
          (get_or_set_open_price db cfg.symbol atm.symbol option_type
            atm.strike (toString atm.expiration) q.mark u today now
            interval_time).1 * 100
    · rw [if_pos ht]
      simpa using ht
    · rw [if_neg ht]
      simpa using ht
  · intro hop
    rw [if_pos hop]

/-- Witness for C5: open 100, current mark 100.5 gives pct change 0.5 —
the signal fires at threshold 0.5 (boundary inclusive) and does not fire
at threshold 0.51. -/
theorem check_entry_signal_threshold_witness :
    ((check_entry_signal cfgEx "CALL" (some 500) (some atmEx)
        (some quoteEx1005) [rowOpen100] "2025-10-20" 1 "10:00").1).isSome =
      true ∧
    (check_entry_signal cfgEx51 "CALL" (some 500) (some atmEx)
        (some quoteEx1005) [rowOpen100] "2025-10-20" 1 "10:00").1 = none := by
  have hopeq : (get_or_set_open_price [rowOpen100] cfgEx.symbol atmEx.symbol
      "CALL" atmEx.strike (toString atmEx.expiration) quoteEx1005.mark 500
      "2025-10-20" 1 "10:00").1 = 100 := by decide
  have hopeq51 : (get_or_set_open_price [rowOpen100] cfgEx51.symbol
      atmEx.symbol "CALL" atmEx.strike (toString atmEx.expiration)
      quoteEx1005.mark 500 "2025-10-20" 1 "10:00").1 = 100 := by decide
  have h1 := (check_entry_signal_threshold cfgEx "CALL" 500 atmEx quoteEx1005
    [rowOpen100] "2025-10-20" 1 "10:00" (by decide) (by decide)).1
    (by rw [hopeq]; norm_num)
  have h2 := (check_entry_signal_threshold cfgEx51 "CALL" 500 atmEx
    quoteEx1005 [rowOpen100] "2025-10-20" 1 "10:00" (by decide)
    (by decide)).1 (by rw [hopeq51]; norm_num)
  constructor
  · refine h1.mpr ?_
    rw [hopeq]
    norm_num [cfgEx, quoteEx1005, Rat.mkRat_eq_div]
  · have hnot : ¬ cfgEx51.threshold ≤
        (quoteEx1005.mark - (get_or_set_open_price [rowOpen100]
            cfgEx51.symbol atmEx.symbol "CALL" atmEx.strike
            (toString atmEx.expiration) quoteEx1005.mark 500 "2025-10-20" 1
            "10:00").1) /
          (get_or_set_open_price [rowOpen100] cfgEx51.symbol atmEx.symbol
            "CALL" atmEx.strike (toString atmEx.expiration) quoteEx1005.mark
            500 "2025-10-20" 1 "10:00").1 * 100 := by
      rw [hopeq51]
      norm_num [cfgEx51, quoteEx1005, Rat.mkRat_eq_div]
    exact Option.not_isSome_iff_eq_none.mp (fun hs => hnot (h2.mp hs))

/-- Claim C10: processing a Trade event merges into the cache entry of its
symbol — only the last price and the freshness timestamp change, the
stored bid, ask and derived mark are retained — and the entry of every
other symbol is untouched. -/
theorem handle_trade_event_merges (cache : QuoteCache) (s : String)
    (e : CacheEntry) (p ts : ℚ) (h : lookupEntry cache s = some e) :
    (∃ e', lookupEntry (applyEvent ts cache (FeedEvent.trade s p)) s = some e' ∧
      e'.bid = e.bid ∧ e'.ask = e.ask ∧ e'.mark = e.mark ∧
      e'.last = some p ∧ e'.timestamp = some ts) ∧
    (∀ s', s' ≠ s →
      lookupEntry (applyEvent ts cache (FeedEvent.trade s p)) s' =
        lookupEntry cache s') := by
  constructor
  · refine ⟨{ (e : CacheEntry) with last := some p, timestamp := some ts },
      ?_, rfl, rfl, rfl, rfl, rfl⟩
    rw [applyEvent, h]
    exact lookupEntry_updateEntry_self cache s _
  · intro s' hs'
    rw [applyEvent]
    exact lookupEntry_updateEntry_other cache s s' _ hs'

/-- Witness for C10: the cached entry for the SPY call holds bid 1.0 and
ask 1.2; a Trade event at price 2 leaves bid, ask and mark unchanged and
only sets last and the timestamp, and other symbols are unaffected. -/
theorem handle_trade_event_merges_witness :
    (∃ e', lookupEntry (applyEvent 1 cacheEx (FeedEvent.trade ".SPY251031C370" 2))
        ".SPY251031C370" = some e' ∧
      e'.bid = entryBidAsk.bid ∧ e'.ask = entryBidAsk.ask ∧
      e'.mark = entryBidAsk.mark ∧ e'.last = some 2 ∧
      e'.timestamp = some 1) ∧
    (∀ s', s' ≠ ".SPY251031C370" →
      lookupEntry (applyEvent 1 cacheEx (FeedEvent.trade ".SPY251031C370" 2))
          s' = lookupEntry cacheEx s') :=
  handle_trade_event_merges cacheEx ".SPY251031C370" entryBidAsk 2 1 (by decide)

/-- Claim C9: every quote returned by get_option_quote (either path) over a
cache produced by the message handler has mark = mid of bid/ask when both
are positive, else last when last is positive, else the 0.01 floor — and
the mark is always strictly positive. -/
theorem get_option_quote_mark_spec (events : List (ℚ × FeedEvent))
    (s : String) (q : OptionQuote)
    (h : get_option_quote (applyEvents events) s = some q ∨
      get_option_quote_retry (applyEvents events) s = some q) :
    q.mark = (if 0 < q.bid ∧ 0 < q.ask then (q.bid + q.ask) / 2
      else if 0 < q.last then q.last else 1 / 100) ∧ 0 < q.mark := by
  cases hlook : lookupEntry (applyEvents events) s with
  | none =>
      cases h with
      | inl h => simp [get_option_quote, hlook] at h
      | inr h => simp [get_option_quote_retry, hlook] at h
  | some e =>
      have hcons := applyEvents_consistent events s e hlook
      rw [entryMarkConsistent] at hcons
      by_cases hba : 0 < e.bid.getD 0 ∧ 0 < e.ask.getD 0
      · have hmid : 0 < (e.bid.getD 0 + e.ask.getD 0) / 2 := by
          have h2 := add_pos hba.1 hba.2
          linarith
        cases h with
        | inl h =>
            simp only [get_option_quote, hlook] at h
            have hm0 : e.mark.getD 0 = (e.bid.getD 0 + e.ask.getD 0) / 2 := by
              rw [hcons, if_pos hba]
            have hne : ¬ e.mark.getD 0 = 0 := by
              rw [hm0]
              exact ne_of_gt hmid
            have hc1 : ¬ (e.mark.getD 0 = 0 ∧ 0 < e.bid.getD 0 ∧
                0 < e.ask.getD 0) := fun hc => hne hc.1
            have hc2 : (0 : ℚ) < e.mark.getD 0 := by
              rw [hm0]
              exact hmid
            rw [if_neg hc1, if_neg hne, if_pos hc2] at h
            simp only [Option.some.injEq] at h
            subst h
            refine ⟨?_, ?_⟩
            · show e.mark.getD 0 =
                if 0 < e.bid.getD 0 ∧ 0 < e.ask.getD 0 then
                  (e.bid.getD 0 + e.ask.getD 0) / 2
                else if 0 < e.last.getD 0 then e.last.getD 0 else 1 / 100
              rw [if_pos hba, hm0]
            · show 0 < e.mark.getD 0
              rw [hm0]
              exact hmid
        | inr h =>
            simp only [get_option_quote_retry, hlook] at h
            rw [if_pos hba, if_pos hmid] at h
            simp only [Option.some.injEq] at h
            subst h
            refine ⟨?_, hmid⟩
            show (e.bid.getD 0 + e.ask.getD 0) / 2 =
              if 0 < e.bid.getD 0 ∧ 0 < e.ask.getD 0 then
                (e.bid.getD 0 + e.ask.getD 0) / 2
              else if 0 < e.last.getD 0 then e.last.getD 0 else 1 / 100
            rw [if_pos hba]
      · have hm0 : e.mark.getD 0 = 0 := by
          rw [hcons, if_neg hba]
        have hmark : ∀ h' : get_option_quote (applyEvents events) s = some q ∨
            get_option_quote_retry (applyEvents events) s = some q,
            q = ⟨s, e.bid.getD 0, e.ask.getD 0, e.last.getD 0,
              if 0 < e.last.getD 0 then e.last.getD 0 else 1 / 100⟩ := by
          intro h'
          cases h' with
          | inl h' =>
              simp only [get_option_quote, hlook] at h'
              have hc1 : ¬ (e.mark.getD 0 = 0 ∧ 0 < e.bid.getD 0 ∧
                  0 < e.ask.getD 0) := fun hc => hba hc.2
              rw [if_neg hc1, if_pos hm0] at h'
              simp only [Option.some.injEq] at h'
              exact h'.symm
          | inr h' =>
              simp only [get_option_quote_retry, hlook] at h'
              rw [if_neg hba] at h'
              simp only [Option.some.injEq] at h'
              exact h'.symm
        have hq := hmark h
        subst hq
        by_cases hl : 0 < e.last.getD 0
        · refine ⟨?_, ?_⟩
          · show (if 0 < e.last.getD 0 then e.last.getD 0 else 1 / 100) =
              if 0 < e.bid.getD 0 ∧ 0 < e.ask.getD 0 then
                (e.bid.getD 0 + e.ask.getD 0) / 2
              else if 0 < e.last.getD 0 then e.last.getD 0 else 1 / 100
            rw [if_neg hba]
          · show 0 < (if 0 < e.last.getD 0 then e.last.getD 0 else 1 / 100)
            rw [if_pos hl]
            exact hl
        · refine ⟨?_, ?_⟩
          · show (if 0 < e.last.getD 0 then e.last.getD 0 else 1 / 100) =
              if 0 < e.bid.getD 0 ∧ 0 < e.ask.getD 0 then
                (e.bid.getD 0 + e.ask.getD 0) / 2
              else if 0 < e.last.getD 0 then e.last.getD 0 else 1 / 100
            rw [if_neg hba]
          · show 0 < (if 0 < e.last.getD 0 then e.last.getD 0 else 1 / 100)
            rw [if_neg hl]
            norm_num

lemma get_option_quote_eval :
    get_option_quote (applyEvents eventsQuote24) ".A" = some quoteEx3 := by
  norm_num [applyEvents, applyEvent, eventsQuote24, emptyEntry, lookupEntry,
    updateEntry, get_option_quote, quoteEx3]

/-- Witness for C9: after a Quote event with bid 2 and ask 4, the returned
quote has mark 3 = (2 + 4) / 2, matching the derivation and strictly
positive. -/
theorem get_option_quote_mark_spec_witness :
    get_option_quote (applyEvents eventsQuote24) ".A" = some quoteEx3 ∧
    quoteEx3.mark = (if 0 < quoteEx3.bid ∧ 0 < quoteEx3.ask then
      (quoteEx3.bid + quoteEx3.ask) / 2
      else if 0 < quoteEx3.last then quoteEx3.last else 1 / 100) ∧
    0 < quoteEx3.mark :=
  ⟨get_option_quote_eval,
   (get_option_quote_mark_spec eventsQuote24 ".A" quoteEx3
     (Or.inl get_option_quote_eval)).1,
   (get_option_quote_mark_spec eventsQuote24 ".A" quoteEx3
     (Or.inl get_option_quote_eval)).2⟩

/-- Claim C6: find_atm_option considers exactly the instruments whose
recomputed days-to-expiration lies in the inclusive DTE window and whose
type matches the request, iterated over expirations in ascending date
order with strikes in chain order; it returns none iff that set is empty,
and otherwise the first instrument, in that order, minimizing
abs(strike - underlying price) — distance ties resolve to the earlier
instrument. -/
theorem find_atm_option_correct (chain : OptionChain) (today : ℤ)
    (symbol option_type : String) (underlying_price : ℚ) (dmin dmax : ℤ) :
    (∀ o, o ∈ validOptions chain today
        (if strUpper option_type = "CALL" then "C" else "P") dmin dmax ↔
      ∃ exp opts, (exp, opts) ∈ chain ∧ o ∈ opts ∧ dmin ≤ exp - today ∧
        exp - today ≤ dmax ∧
        o.option_type =
          (if strUpper option_type = "CALL" then "C" else "P")) ∧
    (find_atm_option chain today symbol option_type underlying_price dmin
        dmax = none ↔
      validOptions chain today
        (if strUpper option_type = "CALL" then "C" else "P") dmin dmax = []) ∧
    (∀ r, find_atm_option chain today symbol option_type underlying_price
        dmin dmax = some r →
      ∃ l₁ a l₂,
        validOptions chain today
          (if strUpper option_type = "CALL" then "C" else "P") dmin dmax =
          l₁ ++ a :: l₂ ∧
        r = atmResult symbol option_type a ∧
        (∀ b ∈ validOptions chain today
            (if strUpper option_type = "CALL" then "C" else "P") dmin dmax,
          |a.strike_price - underlying_price| ≤
            |b.strike_price - underlying_price|) ∧
        (∀ b ∈ l₁, |a.strike_price - underlying_price| <
          |b.strike_price - underlying_price|)) := by
  refine ⟨fun o => mem_validOptions chain today _ dmin dmax o, ?_, ?_⟩
  · simp only [find_atm_option]
    cases hv : validOptions chain today
        (if strUpper option_type = "CALL" then "C" else "P") dmin dmax with
    | nil => simp [minByFirst]
    | cons x xs => simp [minByFirst]
  · intro r hr
    simp only [find_atm_option] at hr
    cases hm : minByFirst (fun opt => |opt.strike_price - underlying_price|)
        (validOptions chain today
          (if strUpper option_type = "CALL" then "C" else "P") dmin dmax) with
    | none =>
        rw [hm] at hr
        simp at hr
    | some a =>
        rw [hm] at hr
        simp only [Option.map_some'] at hr
        obtain ⟨l₁, l₂, hdec, hmin, hstrict⟩ := minByFirst_decomp _ _ _ hm
        exact ⟨l₁, a, l₂, hdec, (Option.some_inj.mp hr).symm, hmin, hstrict⟩

lemma find_atm_eval955 :
    find_atm_option chainEx955 0 "SPY" "call" 101 0 7 =
      some (atmResult "SPY" "call" ⟨"C100", ".C100", "C", 100, 3, 3⟩) := by
  have hs : (if strUpper "call" = "CALL" then "C" else "P") = "C" := by decide
  have hvalid : validOptions chainEx955 0 "C" 0 7 =
      [⟨"C95", ".C95", "C", 95, 3, 3⟩, ⟨"C100", ".C100", "C", 100, 3, 3⟩,
       ⟨"C105", ".C105", "C", 105, 3, 3⟩] := by decide
  simp only [find_atm_option, hs, hvalid, minByFirst, List.foldl,
    Option.map_some']
  norm_num

lemma find_atm_eval98102 :
    find_atm_option chainEx98102 0 "SPY" "call" 100 0 7 =
      some (atmResult "SPY" "call" ⟨"C98", ".C98", "C", 98, 3, 3⟩) := by
  have hs : (if strUpper "call" = "CALL" then "C" else "P") = "C" := by decide
  have hvalid : validOptions chainEx98102 0 "C" 0 7 =
      [⟨"C98", ".C98", "C", 98, 3, 3⟩, ⟨"C102", ".C102", "C", 102, 3, 3⟩] := by
    decide
  simp only [find_atm_option, hs, hvalid, minByFirst, List.foldl,
    Option.map_some']
  norm_num

/-- Witness for C6: strikes 95/100/105 at underlying 101 select strike 100,
the tie case 98/102 at underlying 100 selects 98 — the first in
ascending-expiration/chain order — and the selected instrument satisfies
the first-minimizer decomposition. -/
theorem find_atm_option_correct_witness :
    find_atm_option chainEx955 0 "SPY" "call" 101 0 7 =
      some (atmResult "SPY" "call" ⟨"C100", ".C100", "C", 100, 3, 3⟩) ∧
    find_atm_option chainEx98102 0 "SPY" "call" 100 0 7 =
      some (atmResult "SPY" "call" ⟨"C98", ".C98", "C", 98, 3, 3⟩) ∧
    (∃ l₁ a l₂, validOptions chainEx955 0
        (if strUpper "call" = "CALL" then "C" else "P") 0 7 =
        l₁ ++ a :: l₂ ∧
      atmResult "SPY" "call" ⟨"C100", ".C100", "C", 100, 3, 3⟩ =
        atmResult "SPY" "call" a ∧
      (∀ b ∈ validOptions chainEx955 0
          (if strUpper "call" = "CALL" then "C" else "P") 0 7,
        |a.strike_price - 101| ≤ |b.strike_price - 101|) ∧
      (∀ b ∈ l₁, |a.strike_price - 101| < |b.strike_price - 101|)) :=
  ⟨find_atm_eval955, find_atm_eval98102,
   (find_atm_option_correct chainEx955 0 "SPY" "call" 101 0 7).2.2 _
     find_atm_eval955⟩
